import Mathlib

/-!
# Verification of the raffle-app ticket allocation and submission core

Shallow embedding of the TypeScript/React-Native source of `rodmansw/raffle-app`.
Pure application logic is translated function by function:

* `generateRandomTicketNumbers` (hooks/use-admin-api.ts) — the ticket allocator;
  `Math.random()` is modelled by an arbitrary stream of draws `draws : Nat → Nat`
  (the value `Math.floor(Math.random() * maxNumber)` at iteration `i` is
  `draws i % maxNumber`, which ranges over exactly the support `[0, maxNumber-1]`),
  and the unbounded `while` loop by an explicit fuel parameter: the JS call
  returns a value iff the embedded function returns `some` for some fuel.
* `handleApprove` / `handleReject` (components/SubmissionBottomSheet.tsx) — the
  submission state-machine front end; the outcome is either a validation error
  (an `Alert` followed by `return`, no request issued) or the update request
  payload passed to `updateSubmission.mutateAsync`.
* `useUpdateSubmissionInvalidations` (hooks/use-admin-api.ts) — the query keys
  invalidated in `onSuccess` of `useUpdateSubmission`.
* `handleSave` (components/EditRaffleBottomSheet.tsx) — raffle creation/edit.
* `currentRaffle` (hooks/use-admin-api.ts, `useCurrentRaffle`) — selection of
  the raffle shown on the dashboard.
* `flatMapPages` — the `pages?.flatMap((page) => page.items)` accumulation used
  by the dashboard and raffle-list screens.

JavaScript string/number primitives used by that code (`padStart`,
`Number(...)`-NaN-ness, `parseInt`, `parseFloat`, `trim`, `toString` of a
nonnegative integer) are embedded below, restricted to the ASCII strings the
application manipulates.  `parseFloat` results are represented exactly as
`mantissa * 10 ^ exponent` (constructor `JsNumber.finite`); the rounding of the
decimal value to a binary IEEE double is idealized away — no claim below
depends on the rounded value, only on its sign.
-/

/-! ## JavaScript string primitives -/

/-- JS whitespace recognized by `trim`, `parseInt`, `parseFloat` and
`Number(...)` (ASCII part: space, tab, LF, VT, FF, CR). -/
def isJsWhitespace (c : Char) : Bool :=
  c = ' ' || c = '\t' || c = '\n' || c = Char.ofNat 11 || c = Char.ofNat 12 || c = '\r'

/-- `String.prototype.trim` (over the ASCII whitespace set). -/
def jsTrim (s : String) : String :=
  ⟨((s.data.dropWhile isJsWhitespace).reverse.dropWhile isJsWhitespace).reverse⟩

/-- `String.prototype.padStart(targetLength, pad)` for a one-character pad. -/
def padStart (s : String) (targetLength : Nat) (pad : Char) : String :=
  ⟨List.replicate (targetLength - s.data.length) pad ++ s.data⟩

/-- Decimal digits of `n`, least significant first, computed with explicit fuel
(`fuel ≥ n` suffices) so that the definition is structurally recursive. -/
def natDigitsAux : Nat → Nat → List Char
  | 0, _ => []
  | fuel + 1, n =>
    if n = 0 then [] else Char.ofNat (48 + n % 10) :: natDigitsAux fuel (n / 10)

/-- `Number.prototype.toString()` (base 10) for a natural number. -/
def natToString (n : Nat) : String :=
  if n = 0 then "0" else ⟨(natDigitsAux n n).reverse⟩

/-- Decimal value of a digit string prefix, accumulator style: the fold a JS
reader would perform.  `valFold a l` is `a * 10 ^ l.length + value l` when `l`
consists of decimal digits. -/
def valFold (a : Nat) (l : List Char) : Nat :=
  l.foldl (fun acc c => 10 * acc + (c.toNat - 48)) a

/-- Numeric value of a string of decimal digits (used to state
"representable as an integer in `[0, 10^d - 1]`"). -/
def strVal (s : String) : Nat := valFold 0 s.data

/-! ## `Number(string)` NaN-ness (ECMA-262 StringNumericLiteral grammar) -/

def isHexDigitChar (c : Char) : Bool :=
  c.isDigit || ('a' ≤ c && c ≤ 'f') || ('A' ≤ c && c ≤ 'F')

def isOctDigitChar (c : Char) : Bool := '0' ≤ c && c ≤ '7'

def isBinDigitChar (c : Char) : Bool := c = '0' || c = '1'

/-- Nonempty run of digits satisfying `p`. -/
def digitsAll (p : Char → Bool) (l : List Char) : Bool := !l.isEmpty && l.all p

/-- Recognizes an (optional) ExponentPart: empty, or `e`/`E`, optional sign,
then a nonempty digit run consuming the rest. -/
def isExponentTail (l : List Char) : Bool :=
  match l with
  | [] => true
  | c :: r =>
    (c = 'e' || c = 'E') &&
      (match r with
       | '+' :: r2 => digitsAll Char.isDigit r2
       | '-' :: r2 => digitsAll Char.isDigit r2
       | r2 => digitsAll Char.isDigit r2)

/-- Recognizes an unsigned StrDecimalLiteral:
`Digits [. Digits?] Exponent?` or `. Digits Exponent?`. -/
def isStrDecimalLiteral (l : List Char) : Bool :=
  let ip := l.takeWhile Char.isDigit
  let r1 := l.dropWhile Char.isDigit
  match r1 with
  | '.' :: r2 =>
    let fp := r2.takeWhile Char.isDigit
    let r3 := r2.dropWhile Char.isDigit
    (!ip.isEmpty || !fp.isEmpty) && isExponentTail r3
  | _ => !ip.isEmpty && isExponentTail r1

def isStrUnsignedDecimal (l : List Char) : Bool :=
  l = "Infinity".data || isStrDecimalLiteral l

/-- Recognizes a StrNumericLiteral: signed decimal / `Infinity`, or an unsigned
`0x` / `0o` / `0b` integer literal. -/
def isStrNumericLiteral (l : List Char) : Bool :=
  match l with
  | '+' :: r => isStrUnsignedDecimal r
  | '-' :: r => isStrUnsignedDecimal r
  | '0' :: 'x' :: r => digitsAll isHexDigitChar r
  | '0' :: 'X' :: r => digitsAll isHexDigitChar r
  | '0' :: 'o' :: r => digitsAll isOctDigitChar r
  | '0' :: 'O' :: r => digitsAll isOctDigitChar r
  | '0' :: 'b' :: r => digitsAll isBinDigitChar r
  | '0' :: 'B' :: r => digitsAll isBinDigitChar r
  | _ => isStrUnsignedDecimal l

/-- `isNaN(Number(s))`: `Number` of a trimmed empty string is `0`; otherwise the
trimmed string must be a StrNumericLiteral. -/
def jsNumberIsNaN (s : String) : Bool :=
  let l := ((s.data.dropWhile isJsWhitespace).reverse.dropWhile isJsWhitespace).reverse
  !(l.isEmpty || isStrNumericLiteral l)

/-! ## `parseInt` and `parseFloat` -/

/-- A JS number as produced by `parseFloat` on a numeric prefix: the exact
decimal `mantissa * 10 ^ exp10`, or a signed infinity. -/
inductive JsNumber where
  | finite (mantissa : Int) (exp10 : Int)
  | posInf
  | negInf
deriving DecidableEq

/-- The test `x <= 0` of JS on a parsed number (sign is carried by the
mantissa, so exactness of the decimal representation is enough). -/
def JsNumber.leZero : JsNumber → Bool
  | .finite m _ => m ≤ 0
  | .posInf => false
  | .negInf => true

def hexDigitVal (c : Char) : Nat :=
  if c.isDigit then c.toNat - 48
  else if 'a' ≤ c && c ≤ 'f' then c.toNat - 87
  else c.toNat - 55

/-- `parseInt(s)` with no radix argument: skip whitespace, optional sign,
optional `0x`/`0X` prefix (radix 16), then the longest digit run; `none` is
`NaN`. -/
def jsParseInt (s : String) : Option Int :=
  let l := s.data.dropWhile isJsWhitespace
  let (sign, r) : Int × List Char :=
    match l with
    | '+' :: r => (1, r)
    | '-' :: r => (-1, r)
    | r => (1, r)
  match r with
  | '0' :: 'x' :: r2 =>
    let ds := r2.takeWhile isHexDigitChar
    if ds.isEmpty then none
    else some (sign * (ds.foldl (fun a c => 16 * a + hexDigitVal c) 0 : Nat))
  | r2 =>
    let ds := r2.takeWhile Char.isDigit
    if ds.isEmpty then none
    else some (sign * (valFold 0 ds : Nat))

/-- Exponent prefix contributed by `e`/`E` in `parseFloat`; a malformed
exponent is not part of the parsed prefix and contributes `0`. -/
def parseExponentValue (l : List Char) : Int :=
  match l with
  | 'e' :: r | 'E' :: r =>
    (match r with
     | '+' :: r2 => (valFold 0 (r2.takeWhile Char.isDigit) : Int)
     | '-' :: r2 => -(valFold 0 (r2.takeWhile Char.isDigit) : Int)
     | r2 => (valFold 0 (r2.takeWhile Char.isDigit) : Int))
  | _ => 0

/-- Unsigned part of `parseFloat`: `Infinity`, or longest decimal-literal
prefix `Digits [. Digits] [e…]`; `none` is `NaN`. -/
def jsParseFloatUnsigned (sign : Int) (l : List Char) : Option JsNumber :=
  if l.take 8 = "Infinity".data then
    some (if sign = 1 then .posInf else .negInf)
  else
    let ip := l.takeWhile Char.isDigit
    let r1 := l.dropWhile Char.isDigit
    let (fp, r2) : List Char × List Char :=
      match r1 with
      | '.' :: rr => (rr.takeWhile Char.isDigit, rr.dropWhile Char.isDigit)
      | _ => ([], r1)
    if ip.isEmpty && fp.isEmpty then none
    else
      some (.finite (sign * (valFold 0 (ip ++ fp) : Nat))
        (parseExponentValue r2 - (fp.length : Int)))

/-- `parseFloat(s)`: skip leading whitespace, optional sign, then the longest
numeric prefix. -/
def jsParseFloat (s : String) : Option JsNumber :=
  let l := s.data.dropWhile isJsWhitespace
  match l with
  | '+' :: r => jsParseFloatUnsigned 1 r
  | '-' :: r => jsParseFloatUnsigned (-1) r
  | r => jsParseFloatUnsigned 1 r

/-! ## The ticket allocator (`generateRandomTicketNumbers`) -/

/-- `const maxNumber = Math.pow(10, maxDigits) - 1`. -/
def maxNumberOf (maxDigits : Nat) : Nat := 10 ^ maxDigits - 1

/-- Loop body of `generateRandomTicketNumbers`.  One iteration of the JS
`while (numbers.length < count)` loop consumes one unit of fuel and one stream
position `i`; `Math.floor(Math.random() * maxNumber)` at that position is
`draws i % maxNumber` (and `0` when `maxNumber = 0`, as in JS). -/
def genTicketsAux (count maxDigits : Nat) (existing : List String)
    (draws : Nat → Nat) : Nat → Nat → List String → Option (List String)
  | 0, _, numbers =>
    if numbers.length < count then none else some numbers
  | fuel + 1, i, numbers =>
    if numbers.length < count then
      let maxNumber := maxNumberOf maxDigits
      let randomNumber := (if maxNumber = 0 then 0 else draws i % maxNumber) + 1
      let ticketNumber := padStart (natToString randomNumber) maxDigits '0'
      if !existing.contains ticketNumber && !numbers.contains ticketNumber then
        genTicketsAux count maxDigits existing draws fuel (i + 1)
          (numbers ++ [ticketNumber])
      else
        genTicketsAux count maxDigits existing draws fuel (i + 1) numbers
    else
      some numbers

/-- `generateRandomTicketNumbers(count, maxDigits, existingNumbers)` run
against the draw stream `draws` with the given iteration budget; `some result`
exactly when the JS loop returns `result` within `fuel` iterations. -/
def generateRandomTicketNumbers (count maxDigits : Nat)
    (existingNumbers : List String) (draws : Nat → Nat) (fuel : Nat) :
    Option (List String) :=
  genTicketsAux count maxDigits existingNumbers draws fuel 0 []

/-! ## Data model

Only the fields the embedded operations read are carried; the remaining record
fields of the TypeScript interfaces (emails, titles, timestamps of other kinds,
image payloads, …) are never consulted by the logic under verification. -/

inductive SubmissionStatus where
  | pending
  | approved
  | rejected
deriving DecidableEq

/-- `Submission` (hooks/use-admin-api.ts), restricted to the fields read by the
review flow. -/
structure Submission where
  id : String
  ticket_quantity : Nat
  status : SubmissionStatus
deriving DecidableEq

/-- Raffle `status` values; the source string `"open"` is modelled by the
constructor `opened` (`open` is a Lean keyword). -/
inductive RaffleStatus where
  | draft
  | opened
  | closed
  | completed
deriving DecidableEq

/-- `Raffle` (hooks/use-admin-api.ts), restricted to the fields read by the
embedded operations; `created_at` is the timestamp as a number, i.e. the value
`new Date(r.created_at).getTime()` computed by `useCurrentRaffle`. -/
structure Raffle where
  id : String
  status : RaffleStatus
  created_at : Nat
  max_ticket_digits : Nat
deriving DecidableEq

/-! ## `handleApprove` (components/SubmissionBottomSheet.tsx) -/

/-- The predicate of the `invalidNumbers` filter in `handleApprove`:
`!number || number.length !== raffleMaxDigits || isNaN(Number(number))`. -/
def isInvalidTicketEntry (raffleMaxDigits : Nat) (number : String) : Bool :=
  number = "" || number.length != raffleMaxDigits || jsNumberIsNaN number

/-- Result of pressing Approve: one of the three validation alerts (each
followed by `return`, so no request is issued), or the update request
`{status: "approved", assignTickets: true, ticketNumbers}` sent through
`updateSubmission.mutateAsync` for the submission `id`. -/
inductive ApproveOutcome where
  | invalidFormat (invalidNumbers : List String)
  | duplicateInBatch
  | conflictWithExisting (conflicts : List String)
  | commit (id : String) (ticketNumbers : List String)
deriving DecidableEq

/-- `handleApprove`: `none` when `submission` is null (the handler returns
before doing anything); `new Set(xs).size` is the number of distinct elements,
`xs.dedup.length`. -/
def handleApprove (submission : Option Submission) (ticketNumbers : List String)
    (raffleMaxDigits : Nat) (existingTicketNumbers : List String) :
    Option ApproveOutcome :=
  match submission with
  | none => none
  | some s =>
    let invalidNumbers :=
      ticketNumbers.filter (fun number => isInvalidTicketEntry raffleMaxDigits number)
    if invalidNumbers.length > 0 then
      some (.invalidFormat invalidNumbers)
    else if ticketNumbers.dedup.length != ticketNumbers.length then
      some .duplicateInBatch
    else
      let conflicts :=
        ticketNumbers.filter (fun number => existingTicketNumbers.contains number)
      if conflicts.length > 0 then
        some (.conflictWithExisting conflicts)
      else
        some (.commit s.id ticketNumbers)

/-- `NumberSpace.isValid(candidate, digitWidth)` as worded by the spec (a
string of exactly `digitWidth` ASCII digits) — stated here only to compare the
source's validation against it; the source itself checks
`isInvalidTicketEntry`. -/
def specIsValid (candidate : String) (digitWidth : Nat) : Bool :=
  candidate.length == digitWidth && candidate.data.all Char.isDigit

/-! ## `handleReject` and the shared mutation's cache invalidation -/

/-- Result of pressing Reject: the missing-reason alert (no request), or the
update request `{status: "rejected", admin_notes}`. -/
inductive RejectOutcome where
  | missingReason
  | request (id : String) (admin_notes : String)
deriving DecidableEq

/-- `handleReject` (components/SubmissionBottomSheet.tsx):
`if (!rejectionNote.trim()) { alert; return; }` then the mutation. -/
def handleReject (submission : Option Submission) (rejectionNote : String) :
    Option RejectOutcome :=
  match submission with
  | none => none
  | some s =>
    if jsTrim rejectionNote = "" then some .missingReason
    else some (.request s.id rejectionNote)

/-- The query-key prefixes invalidated by `useUpdateSubmission`'s `onSuccess`
(hooks/use-admin-api.ts) — run after every successful submission update,
approve and reject alike. -/
def useUpdateSubmissionInvalidations : List (List String) :=
  [["submissions"], ["stats"], ["existingTicketNumbers"], ["approvedTickets"]]

/-! ## Page accumulation (app/(tabs)/index.tsx and the raffles screen) -/

/-- One fetched page; `items` is the page's item array (`page.submissions`,
`page.tickets`, `page.raffles` at the three call sites). -/
structure PageOf (α : Type) where
  items : List α
deriving DecidableEq

/-- `pages?.flatMap((page) => page.items) || []` — the accumulation shown for
submissions, approved tickets, and raffles. -/
def flatMapPages {α : Type} (pages : List (PageOf α)) : List α :=
  pages.flatMap (fun page => page.items)

/-! ## `handleSave` (components/EditRaffleBottomSheet.tsx) -/

/-- The body passed to `onSave` (and then to the create/update mutation);
`description` and `image_url` are `null` when the source expression
`x || null` takes the `null` branch, and `max_ticket_digits` is present only
for `...(raffle ? {} : { max_ticket_digits: digits })`. -/
structure RafflePayload where
  title : String
  description : Option String
  ticket_price : JsNumber
  status : RaffleStatus
  image_url : Option String
  max_ticket_digits : Option Int
deriving DecidableEq

/-- Result of pressing Save: one of the validation alerts (each followed by
`return`), or the payload handed to `onSave`. -/
inductive SaveOutcome where
  | titleRequired
  | priceRequired
  | priceNotPositive
  | maxDigitsRequired
  | maxDigitsOutOfRange
  | save (payload : RafflePayload)
deriving DecidableEq

/-- `handleSave`: `raffle` is the raffle being edited (`none` when creating).
The two `!raffle && …` digit checks short-circuit to false when editing, and
the spread `...(raffle ? {} : { max_ticket_digits: digits })` omits the field
when editing. -/
def handleSave (raffle : Option Raffle) (title description ticketPrice : String)
    (status : RaffleStatus) (maxDigits imageBase64 : String) : SaveOutcome :=
  if jsTrim title = "" then .titleRequired
  else if jsTrim ticketPrice = "" || (jsParseFloat ticketPrice).isNone then
    .priceRequired
  else
    match jsParseFloat ticketPrice with
    | none => .priceRequired
    | some price =>
      if price.leZero then .priceNotPositive
      else
        let payloadBase : Option Int → RafflePayload := fun digits? =>
          { title := jsTrim title
            description := if jsTrim description = "" then none else some (jsTrim description)
            ticket_price := price
            status := status
            image_url := if imageBase64 = "" then none else some imageBase64
            max_ticket_digits := digits? }
        match raffle with
        | some _ => .save (payloadBase none)
        | none =>
          if jsTrim maxDigits = "" || (jsParseInt maxDigits).isNone then
            .maxDigitsRequired
          else
            match jsParseInt maxDigits with
            | none => .maxDigitsRequired
            | some digits =>
              if digits < 1 || digits > 10 then .maxDigitsOutOfRange
              else .save (payloadBase (some digits))

/-! ## `useCurrentRaffle` (hooks/use-admin-api.ts) -/

/-- The query function of `useCurrentRaffle` applied to the fetched raffle
list: first `find` of an open raffle, otherwise the head of the list sorted by
`created_at` descending (`sort((a, b) => b.getTime() - a.getTime())`,
a stable sort, modelled by `mergeSort`); `undefined` on an empty list. -/
def currentRaffle (raffles : List Raffle) : Option Raffle :=
  match raffles.find? (fun r => r.status == RaffleStatus.opened) with
  | some openRaffle => some openRaffle
  | none =>
    (raffles.mergeSort (fun a b => decide (b.created_at ≤ a.created_at))).head?

/-! ## Arithmetic facts about the digit/format primitives -/

theorem natDigitsAux_length_le :
    ∀ fuel n d, n ≤ fuel → n < 10 ^ d → (natDigitsAux fuel n).length ≤ d := by
  intro fuel
  induction fuel with
  | zero =>
    intro n d hn _
    have h0 : n = 0 := by omega
    simp [natDigitsAux, h0]
  | succ f ih =>
    intro n d hn hlt
    by_cases h0 : n = 0
    · simp [natDigitsAux, h0]
    · cases d with
      | zero => simp at hlt; omega
      | succ d' =>
        simp only [natDigitsAux, if_neg h0, List.length_cons]
        have hdiv : n / 10 < n := Nat.div_lt_self (Nat.pos_of_ne_zero h0) (by omega)
        have h1 : n / 10 ≤ f := by omega
        have h2 : n / 10 < 10 ^ d' := by
          apply Nat.div_lt_of_lt_mul
          calc n < 10 ^ (d' + 1) := hlt
            _ = 10 * 10 ^ d' := by ring
        have := ih (n / 10) d' h1 h2
        omega

theorem natDigitsAux_isDigit :
    ∀ fuel n c, c ∈ natDigitsAux fuel n → c.isDigit = true := by
  have key : ∀ m < 10, (Char.ofNat (48 + m)).isDigit = true := by decide
  intro fuel
  induction fuel with
  | zero => simp [natDigitsAux]
  | succ f ih =>
    intro n c hc
    by_cases h0 : n = 0
    · simp [natDigitsAux, h0] at hc
    · simp only [natDigitsAux, if_neg h0, List.mem_cons] at hc
      rcases hc with h | h
      · subst h; exact key _ (Nat.mod_lt _ (by omega))
      · exact ih _ _ h

theorem valFold_append (a : Nat) (l₁ l₂ : List Char) :
    valFold a (l₁ ++ l₂) = valFold (valFold a l₁) l₂ := by
  simp [valFold, List.foldl_append]

theorem valFold_natDigitsAux :
    ∀ fuel n a, n ≤ fuel →
      valFold a (natDigitsAux fuel n).reverse =
        a * 10 ^ (natDigitsAux fuel n).length + n := by
  have key : ∀ m < 10, (Char.ofNat (48 + m)).toNat - 48 = m := by decide
  intro fuel
  induction fuel with
  | zero =>
    intro n a hn
    have h0 : n = 0 := by omega
    simp [natDigitsAux, h0, valFold]
  | succ f ih =>
    intro n a hn
    by_cases h0 : n = 0
    · simp [natDigitsAux, h0, valFold]
    · have hdiv : n / 10 < n := Nat.div_lt_self (Nat.pos_of_ne_zero h0) (by omega)
      simp only [natDigitsAux, if_neg h0, List.reverse_cons, List.length_cons]
      rw [valFold_append, ih (n / 10) a (by omega)]
      show 10 * (a * 10 ^ (natDigitsAux f (n / 10)).length + n / 10) +
          ((Char.ofNat (48 + n % 10)).toNat - 48) = _
      rw [key _ (Nat.mod_lt _ (by omega))]
      have hdm : 10 * (n / 10) + n % 10 = n := by omega
      calc 10 * (a * 10 ^ (natDigitsAux f (n / 10)).length + n / 10) + n % 10
          = a * (10 ^ (natDigitsAux f (n / 10)).length * 10) +
              (10 * (n / 10) + n % 10) := by ring
        _ = a * 10 ^ ((natDigitsAux f (n / 10)).length + 1) + n := by
              rw [← pow_succ, hdm]

theorem valFold_replicate_zero :
    ∀ k a (l : List Char),
      valFold a (List.replicate k '0' ++ l) = valFold (a * 10 ^ k) l := by
  intro k
  induction k with
  | zero => intro a l; simp
  | succ k ih =>
    intro a l
    rw [List.replicate_succ, List.cons_append]
    show valFold (10 * a + ('0'.toNat - 48)) (List.replicate k '0' ++ l) = _
    rw [ih]
    congr 1
    show (10 * a + 0) * 10 ^ k = a * 10 ^ (k + 1)
    ring

/-- The formatted ticket string `m.toString().padStart(d, "0")` for
`1 ≤ m < 10 ^ d` has length exactly `d`, consists of decimal digits, and its
decimal value is `m`. -/
theorem ticket_format_spec (m d : Nat) (h1 : 1 ≤ m) (h2 : m < 10 ^ d) :
    (padStart (natToString m) d '0').length = d ∧
    (∀ c ∈ (padStart (natToString m) d '0').data, c.isDigit = true) ∧
    strVal (padStart (natToString m) d '0') = m := by
  have h0 : m ≠ 0 := by omega
  have hdata : (natToString m).data = (natDigitsAux m m).reverse := by
    simp [natToString, h0]
  have hlen : (natDigitsAux m m).length ≤ d :=
    natDigitsAux_length_le m m d (Nat.le_refl m) h2
  refine ⟨?_, ?_, ?_⟩
  · show (List.replicate (d - (natToString m).data.length) '0' ++
      (natToString m).data).length = d
    rw [hdata]
    simp only [List.length_append, List.length_replicate, List.length_reverse]
    omega
  · intro c hc
    rcases List.mem_append.mp hc with h | h
    · have := List.eq_of_mem_replicate h
      subst this; decide
    · rw [hdata, List.mem_reverse] at h
      exact natDigitsAux_isDigit m m c h
  · show valFold 0 (List.replicate (d - (natToString m).data.length) '0' ++
      (natToString m).data) = m
    rw [valFold_replicate_zero, hdata,
      valFold_natDigitsAux m m _ (Nat.le_refl m)]
    simp

/-! ## Soundness of the allocator loop -/

/-- Everything the loop guarantees about each accepted ticket string. -/
def TicketOk (maxDigits : Nat) (existing : List String) (t : String) : Prop :=
  t.length = maxDigits ∧ (∀ c ∈ t.data, c.isDigit = true) ∧
  1 ≤ strVal t ∧ strVal t ≤ 10 ^ maxDigits - 1 ∧ t ∉ existing

theorem maxNumberOf_pos {maxDigits : Nat} (hd : 1 ≤ maxDigits) :
    0 < maxNumberOf maxDigits := by
  unfold maxNumberOf
  have : 10 ^ 1 ≤ 10 ^ maxDigits := Nat.pow_le_pow_right (by omega) hd
  simp at this
  omega

theorem ticketOk_of_draw (maxDigits : Nat) (existing : List String) (r : Nat)
    (hd : 1 ≤ maxDigits) (hr : r < maxNumberOf maxDigits)
    (hex : padStart (natToString (r + 1)) maxDigits '0' ∉ existing) :
    TicketOk maxDigits existing (padStart (natToString (r + 1)) maxDigits '0') := by
  have hmax : 0 < maxNumberOf maxDigits := maxNumberOf_pos hd
  have hpow : 0 < 10 ^ maxDigits := Nat.pos_pow_of_pos _ (by omega)
  have hlt : r + 1 < 10 ^ maxDigits := by
    have : maxNumberOf maxDigits = 10 ^ maxDigits - 1 := rfl
    omega
  obtain ⟨hl, hdig, hval⟩ := ticket_format_spec (r + 1) maxDigits (by omega) hlt
  have hmax' : maxNumberOf maxDigits = 10 ^ maxDigits - 1 := rfl
  refine ⟨hl, hdig, ?_, ?_, hex⟩
  · rw [hval]; omega
  · rw [hval]; omega

theorem genTicketsAux_sound (count maxDigits : Nat) (existing : List String)
    (draws : Nat → Nat) (hd : 1 ≤ maxDigits) :
    ∀ fuel i numbers res,
      genTicketsAux count maxDigits existing draws fuel i numbers = some res →
      numbers.Nodup → numbers.length ≤ count →
      (∀ t ∈ numbers, TicketOk maxDigits existing t) →
      res.length = count ∧ res.Nodup ∧
        ∀ t ∈ res, TicketOk maxDigits existing t := by
  intro fuel
  induction fuel with
  | zero =>
    intro i numbers res h hnd hlen hok
    simp only [genTicketsAux] at h
    split at h
    · exact absurd h (by simp)
    · obtain rfl : numbers = res := Option.some.inj h
      refine ⟨?_, hnd, hok⟩
      omega
  | succ f ih =>
    intro i numbers res h hnd hlen hok
    simp only [genTicketsAux] at h
    split at h
    case isTrue hlt =>
      have hmax : 0 < maxNumberOf maxDigits := maxNumberOf_pos hd
      have hmaxne : ¬ (maxNumberOf maxDigits = 0) := by omega
      rw [if_neg hmaxne] at h
      split at h
      case isTrue hacc =>
        simp only [Bool.and_eq_true, Bool.not_eq_true'] at hacc
        obtain ⟨hex, hnum⟩ := hacc
        have hexmem :
            padStart (natToString (draws i % maxNumberOf maxDigits + 1))
              maxDigits '0' ∉ existing := by
          intro hm
          rw [List.contains_eq_any_beq] at hex
          have : existing.any
              (padStart (natToString (draws i % maxNumberOf maxDigits + 1))
                maxDigits '0' == ·) = true :=
            List.any_eq_true.mpr ⟨_, hm, by simp⟩
          simp [this] at hex
        have hnummem :
            padStart (natToString (draws i % maxNumberOf maxDigits + 1))
              maxDigits '0' ∉ numbers := by
          intro hm
          rw [List.contains_eq_any_beq] at hnum
          have : numbers.any
              (padStart (natToString (draws i % maxNumberOf maxDigits + 1))
                maxDigits '0' == ·) = true :=
            List.any_eq_true.mpr ⟨_, hm, by simp⟩
          simp [this] at hnum
        refine ih (i + 1) _ res h ?_ ?_ ?_
        · exact List.nodup_append.mpr ⟨hnd, List.nodup_singleton _,
            fun a ha => by simp; rintro rfl; exact hnummem ha⟩
        · simp; omega
        · intro t ht
          rcases List.mem_append.mp ht with hin | hin
          · exact hok t hin
          · rw [List.mem_singleton] at hin
            subst hin
            exact ticketOk_of_draw maxDigits existing _ hd
              (Nat.mod_lt _ hmax) hexmem
      case isFalse =>
        exact ih (i + 1) numbers res h hnd hlen hok
    case isFalse hge =>
      obtain rfl : numbers = res := Option.some.inj h
      refine ⟨?_, hnd, hok⟩
      omega

/-! ## Exhaustion behaviour of the allocator -/

/-- The strings the loop can ever draw: `[1, maxNumber]`, formatted. -/
def drawableNumbers (maxDigits : Nat) : List String :=
  (List.range (maxNumberOf maxDigits)).map
    (fun k => padStart (natToString (k + 1)) maxDigits '0')

/-- The drawable strings not blocked by `existingNumbers`. -/
def freeNumbers (maxDigits : Nat) (existing : List String) : List String :=
  (drawableNumbers maxDigits).filter (fun t => !existing.contains t)

theorem length_le_of_nodup_subset {α : Type} [DecidableEq α] {l m : List α}
    (hnd : l.Nodup) (hsub : ∀ x ∈ l, x ∈ m) : l.length ≤ m.length := by
  calc l.length = l.toFinset.card := (List.toFinset_card_of_nodup hnd).symm
    _ ≤ m.toFinset.card := by
        apply Finset.card_le_card
        intro x hx
        rw [List.mem_toFinset] at hx ⊢
        exact hsub x hx
    _ ≤ m.length := List.toFinset_card_le m

theorem genTicketsAux_exhausted (count maxDigits : Nat) (existing : List String)
    (draws : Nat → Nat) (hd : 1 ≤ maxDigits)
    (hfree : (freeNumbers maxDigits existing).length < count) :
    ∀ fuel i numbers, numbers.Nodup →
      (∀ t ∈ numbers, t ∈ freeNumbers maxDigits existing) →
      genTicketsAux count maxDigits existing draws fuel i numbers = none := by
  intro fuel
  induction fuel with
  | zero =>
    intro i numbers hnd hsub
    have hlt : numbers.length < count :=
      lt_of_le_of_lt (length_le_of_nodup_subset hnd hsub) hfree
    simp [genTicketsAux, hlt]
  | succ f ih =>
    intro i numbers hnd hsub
    have hlt : numbers.length < count :=
      lt_of_le_of_lt (length_le_of_nodup_subset hnd hsub) hfree
    have hmax : 0 < maxNumberOf maxDigits := maxNumberOf_pos hd
    have hmaxne : ¬ (maxNumberOf maxDigits = 0) := by omega
    simp only [genTicketsAux, if_pos hlt, if_neg hmaxne]
    split
    case isTrue hacc =>
      simp only [Bool.and_eq_true, Bool.not_eq_true'] at hacc
      obtain ⟨hex, hnum⟩ := hacc
      have hnummem :
          padStart (natToString (draws i % maxNumberOf maxDigits + 1))
            maxDigits '0' ∉ numbers := by
        intro hm
        rw [List.contains_eq_any_beq] at hnum
        have : numbers.any
            (padStart (natToString (draws i % maxNumberOf maxDigits + 1))
              maxDigits '0' == ·) = true :=
          List.any_eq_true.mpr ⟨_, hm, by simp⟩
        simp [this] at hnum
      apply ih (i + 1)
      · exact List.nodup_append.mpr ⟨hnd, List.nodup_singleton _,
          fun a ha => by simp; rintro rfl; exact hnummem ha⟩
      · intro t ht
        rcases List.mem_append.mp ht with hin | hin
        · exact hsub t hin
        · rw [List.mem_singleton] at hin
          subst hin
          rw [freeNumbers, List.mem_filter]
          constructor
          · rw [drawableNumbers, List.mem_map]
            exact ⟨draws i % maxNumberOf maxDigits,
              List.mem_range.mpr (Nat.mod_lt _ hmax), rfl⟩
          · show (!existing.contains
              (padStart (natToString (draws i % maxNumberOf maxDigits + 1))
                maxDigits '0')) = true
            rw [hex]
            rfl
    case isFalse =>
      exact ih (i + 1) numbers hnd hsub

/-! ## Claims about the allocator -/

/-- C1: whenever `generateRandomTicketNumbers(count, maxDigits, existing)`
returns (with `maxDigits ≥ 1`, `count ≥ 1`), the result consists of exactly
`count` pairwise-distinct strings, each of length exactly `maxDigits`
consisting of decimal digits, each representable as an integer in
`[0, 10 ^ maxDigits - 1]`, and none present in the supplied issued set. -/
theorem generateRandomTicketNumbers_returns_spec
    (count maxDigits : Nat) (existingNumbers : List String) (draws : Nat → Nat)
    (fuel : Nat) (res : List String)
    (hd : 1 ≤ maxDigits) (_hc : 1 ≤ count)
    (h : generateRandomTicketNumbers count maxDigits existingNumbers draws fuel =
      some res) :
    res.length = count ∧ res.Nodup ∧
      ∀ t ∈ res, t.length = maxDigits ∧ (∀ c ∈ t.data, c.isDigit = true) ∧
        strVal t ≤ 10 ^ maxDigits - 1 ∧ t ∉ existingNumbers := by
  obtain ⟨h1, h2, h3⟩ := genTicketsAux_sound count maxDigits existingNumbers draws
    hd fuel 0 [] res h (List.nodup_nil) (by simp) (by simp)
  refine ⟨h1, h2, fun t ht => ?_⟩
  obtain ⟨ha, hb, _, hc', hd'⟩ := h3 t ht
  exact ⟨ha, hb, hc', hd'⟩

/-- Witness for C1 at a concrete returning run: one ticket of width 1 drawn
from the constant-zero stream. -/
theorem generateRandomTicketNumbers_returns_spec_witness :
    generateRandomTicketNumbers 1 1 [] (fun _ => 0) 1 = some ["1"] ∧
    (["1"] : List String).length = 1 ∧ (["1"] : List String).Nodup ∧
      ∀ t ∈ (["1"] : List String), t.length = 1 ∧
        (∀ c ∈ t.data, c.isDigit = true) ∧
        strVal t ≤ 10 ^ 1 - 1 ∧ t ∉ ([] : List String) :=
  ⟨by decide,
   generateRandomTicketNumbers_returns_spec 1 1 [] (fun _ => 0) 1 ["1"]
     (by decide) (by decide) (by decide)⟩

/-- C2 counterexample: with `count + |issued| = 12 > 10 ^ 1` the allocator can
still return ticket numbers (the supplied issued strings lie outside the
drawable range), so the call does not fail — and the source has no
SpaceExhausted error path at all. -/
theorem generateRandomTicketNumbers_no_spaceExhausted_cex :
    10 ^ 1 <
      1 + (["aa", "bb", "cc", "dd", "ee", "ff", "gg", "hh", "ii", "jj", "kk"] :
        List String).length ∧
    generateRandomTicketNumbers 1 1
      ["aa", "bb", "cc", "dd", "ee", "ff", "gg", "hh", "ii", "jj", "kk"]
      (fun _ => 0) 1 = some ["1"] := by
  decide

/-- C2 amended: `generateRandomTicketNumbers` performs no space-exhaustion
check; whenever the request exceeds the number of drawable values
`[1, 10 ^ maxDigits - 1]` not blocked by the issued set, the loop never
terminates — for every iteration budget it fails to return. -/
theorem generateRandomTicketNumbers_exhausted_diverges
    (count maxDigits : Nat) (existingNumbers : List String) (draws : Nat → Nat)
    (fuel : Nat) (hd : 1 ≤ maxDigits)
    (hfree : (freeNumbers maxDigits existingNumbers).length < count) :
    generateRandomTicketNumbers count maxDigits existingNumbers draws fuel =
      none :=
  genTicketsAux_exhausted count maxDigits existingNumbers draws hd hfree fuel 0 []
    List.nodup_nil (by simp)

/-- Witness for C2's amended theorem: `count = 10` exceeds the `9` drawable
width-1 values, so the run returns nothing for this (arbitrary) budget. -/
theorem generateRandomTicketNumbers_exhausted_diverges_witness :
    (freeNumbers 1 []).length < 10 ∧
    generateRandomTicketNumbers 10 1 [] (fun _ => 0) 5 = none :=
  ⟨by decide,
   generateRandomTicketNumbers_exhausted_diverges 10 1 [] (fun _ => 0) 5
     (by decide) (by decide)⟩

/-- C3 counterexample: for width 1 the value `0` (string `"0"`) is in
`[0, maxValue]` and not issued, yet no draw stream and no iteration budget ever
allocates it — the drawn integer `Math.floor(Math.random() * maxNumber) + 1`
is never `0`. -/
theorem generateRandomTicketNumbers_zero_unreachable_cex :
    ("0" ∉ ([] : List String)) ∧ strVal "0" ≤ 10 ^ 1 - 1 ∧
    ¬ ∃ (draws : Nat → Nat) (fuel : Nat) (res : List String),
        generateRandomTicketNumbers 1 1 [] draws fuel = some res ∧ "0" ∈ res := by
  refine ⟨by decide, by decide, ?_⟩
  rintro ⟨draws, fuel, res, h, hmem⟩
  have hok := (genTicketsAux_sound 1 1 [] draws (by decide) fuel 0 [] res h
    List.nodup_nil (by simp) (by simp)).2.2 "0" hmem
  have h1 : 1 ≤ strVal "0" := hok.2.2.1
  have h0 : strVal "0" = 0 := by decide
  omega

/-- C3 amended: the rejection-sampling draw is uniform over `[1, maxValue]`
(not `[0, maxValue]`): every value `v` in `[1, maxValue]` whose formatted
string is not issued is allocated under the draw stream that yields `v - 1`. -/
theorem generateRandomTicketNumbers_reaches_free_value
    (maxDigits v : Nat) (existingNumbers : List String)
    (hd : 1 ≤ maxDigits) (hv1 : 1 ≤ v) (hv2 : v ≤ maxNumberOf maxDigits)
    (hfree : padStart (natToString v) maxDigits '0' ∉ existingNumbers) :
    generateRandomTicketNumbers 1 maxDigits existingNumbers (fun _ => v - 1) 1 =
      some [padStart (natToString v) maxDigits '0'] := by
  have hmax : 0 < maxNumberOf maxDigits := maxNumberOf_pos hd
  have hmaxne : ¬ (maxNumberOf maxDigits = 0) := by omega
  have hcont : existingNumbers.contains (padStart (natToString v) maxDigits '0')
      = false := by
    rw [List.contains_eq_any_beq]
    rw [List.any_eq_false]
    intro x hx
    simp only [beq_iff_eq]
    intro heq
    exact hfree (heq ▸ hx)
  have hmod : (v - 1) % maxNumberOf maxDigits = v - 1 :=
    Nat.mod_eq_of_lt (by omega)
  have hsucc : v - 1 + 1 = v := by omega
  unfold generateRandomTicketNumbers
  simp only [genTicketsAux, List.length_nil, if_neg hmaxne, hmod, hsucc,
    if_pos (by omega : (0:Nat) < 1), hcont, List.contains_nil,
    Bool.not_false, Bool.and_self, if_pos, List.nil_append, List.length_cons,
    lt_irrefl, if_false]

/-- Witness for C3's amended theorem: value 10 (`"010"`) is free and reached. -/
theorem generateRandomTicketNumbers_reaches_free_value_witness :
    padStart (natToString 10) 3 '0' = "010" ∧
    generateRandomTicketNumbers 1 3 ["011"] (fun _ => 10 - 1) 1 =
      some [padStart (natToString 10) 3 '0'] :=
  ⟨by decide,
   generateRandomTicketNumbers_reaches_free_value 3 10 ["011"]
     (by decide) (by decide) (by decide) (by decide)⟩

/-! ## Claims about `handleApprove` -/

/-- `new Set(l).size = l.length` exactly when `l` has no duplicates. -/
theorem dedup_length_eq_iff {α : Type} [DecidableEq α] (l : List α) :
    l.dedup.length = l.length ↔ l.Nodup := by
  constructor
  · intro h
    have := List.Sublist.eq_of_length (List.dedup_sublist l) h
    rw [← this]
    exact List.nodup_dedup l
  · intro h
    rw [List.dedup_eq_self.mpr h]

theorem contains_eq_false_iff {α : Type} [BEq α] [LawfulBEq α]
    (l : List α) (a : α) : l.contains a = false ↔ a ∉ l := by
  constructor
  · intro h hm
    rw [List.contains_eq_any_beq] at h
    have : l.any (a == ·) = true := List.any_eq_true.mpr ⟨a, hm, by simp⟩
    simp [this] at h
  · intro h
    rw [List.contains_eq_any_beq]
    rw [List.any_eq_false]
    intro x hx
    simp only [beq_iff_eq]
    intro heq
    exact h (heq ▸ hx)

/-- C4 counterexample: a pending submission approved with the duplicate batch
`["abc", "abc"]` does not fail `DuplicateInBatch` — the format filter fires
first and the reported error is the invalid-format alert. -/
theorem handleApprove_duplicate_masked_cex :
    ¬ (["abc", "abc"] : List String).Nodup ∧
    handleApprove (some ⟨"s0", 2, .pending⟩) ["abc", "abc"] 3 [] =
      some (.invalidFormat ["abc", "abc"]) ∧
    handleApprove (some ⟨"s0", 2, .pending⟩) ["abc", "abc"] 3 [] ≠
      some .duplicateInBatch := by
  refine ⟨by decide, by decide, by decide⟩

/-- C4 amended: approving a pending submission with a batch containing a
duplicate never issues the update request (the submission stays pending with
no bound tickets), and when every entry additionally passes the format filter
the reported error is exactly `DuplicateInBatch`. -/
theorem handleApprove_duplicate_no_commit
    (s : Submission) (ticketNumbers existing : List String) (d : Nat)
    (hdup : ¬ ticketNumbers.Nodup) :
    (∀ i p, handleApprove (some s) ticketNumbers d existing ≠
      some (.commit i p)) ∧
    ((∀ n ∈ ticketNumbers, isInvalidTicketEntry d n = false) →
      handleApprove (some s) ticketNumbers d existing =
        some .duplicateInBatch) := by
  have hlen : ticketNumbers.dedup.length ≠ ticketNumbers.length := by
    intro h
    exact hdup ((dedup_length_eq_iff ticketNumbers).mp h)
  constructor
  · intro i p
    simp only [handleApprove]
    split
    · simp
    · rw [if_pos (by simpa using hlen)]
      simp
  · intro hvalid
    have hfilter : ticketNumbers.filter
        (fun number => isInvalidTicketEntry d number) = [] := by
      rw [List.filter_eq_nil_iff]
      intro a ha
      simp [hvalid a ha]
    simp only [handleApprove, hfilter, List.length_nil, gt_iff_lt,
      lt_irrefl, if_false]
    rw [if_pos (by simpa using hlen)]

/-- Witness for C4's amended theorem: the spec's own duplicate example
`["010", "010"]` (well-formed entries) fails `DuplicateInBatch`. -/
theorem handleApprove_duplicate_no_commit_witness :
    handleApprove (some ⟨"s0", 2, .pending⟩) ["010", "010"] 3 [] =
      some .duplicateInBatch :=
  (handleApprove_duplicate_no_commit ⟨"s0", 2, .pending⟩ ["010", "010"] []
    3 (by decide)).2 (by decide)

theorem contains_eq_true_iff {α : Type} [BEq α] [LawfulBEq α]
    (l : List α) (a : α) : l.contains a = true ↔ a ∈ l := by
  rw [List.contains_eq_any_beq, List.any_eq_true]
  constructor
  · rintro ⟨x, hx, hbeq⟩
    rw [beq_iff_eq] at hbeq
    exact hbeq ▸ hx
  · intro h
    exact ⟨a, h, by simp⟩

/-- C5 counterexample: with `"010"` already issued, approving the batch
`["010", "010"]` (which intersects the issued set) does not fail
`ConflictWithExisting` — the duplicate check fires first. -/
theorem handleApprove_conflict_masked_cex :
    ("010" ∈ (["010", "010"] : List String) ∧ "010" ∈ (["010"] : List String)) ∧
    handleApprove (some ⟨"s1", 2, .pending⟩) ["010", "010"] 3 ["010"] =
      some .duplicateInBatch ∧
    ∀ conflicts, handleApprove (some ⟨"s1", 2, .pending⟩) ["010", "010"] 3
      ["010"] ≠ some (.conflictWithExisting conflicts) := by
  refine ⟨by decide, by decide, ?_⟩
  intro conflicts h
  have h2 : handleApprove (some ⟨"s1", 2, .pending⟩) ["010", "010"] 3 ["010"] =
      some ApproveOutcome.duplicateInBatch := by decide
  rw [h2] at h
  simp at h

/-- C5 amended: for a batch that passes the format filter and is
pairwise-distinct, any overlap with the issued set fails
`ConflictWithExisting`, the named conflicts are exactly the members of the
batch that are issued (each listed once), and no update request is issued. -/
theorem handleApprove_conflict_exact
    (s : Submission) (ticketNumbers existing : List String) (d : Nat)
    (hvalid : ∀ n ∈ ticketNumbers, isInvalidTicketEntry d n = false)
    (hnodup : ticketNumbers.Nodup)
    (hconf : ∃ n ∈ ticketNumbers, n ∈ existing) :
    handleApprove (some s) ticketNumbers d existing =
      some (.conflictWithExisting
        (ticketNumbers.filter (fun number => existing.contains number))) ∧
    (∀ n, n ∈ ticketNumbers.filter (fun number => existing.contains number) ↔
      n ∈ ticketNumbers ∧ n ∈ existing) ∧
    (ticketNumbers.filter (fun number => existing.contains number)).Nodup := by
  have hfilter : ticketNumbers.filter
      (fun number => isInvalidTicketEntry d number) = [] := by
    rw [List.filter_eq_nil_iff]
    intro a ha
    simp [hvalid a ha]
  have hdedup : ticketNumbers.dedup.length = ticketNumbers.length :=
    (dedup_length_eq_iff ticketNumbers).mpr hnodup
  obtain ⟨n, hn, hnmem⟩ := hconf
  have hnconf : n ∈ ticketNumbers.filter
      (fun number => existing.contains number) :=
    List.mem_filter.mpr ⟨hn, (contains_eq_true_iff existing n).mpr hnmem⟩
  have hpos : 0 < (ticketNumbers.filter
      (fun number => existing.contains number)).length :=
    List.length_pos.mpr (List.ne_nil_of_mem hnconf)
  refine ⟨?_, ?_, List.Nodup.filter _ hnodup⟩
  · simp only [handleApprove, hfilter, List.length_nil, gt_iff_lt,
      lt_irrefl, if_false, hdedup, bne_self_eq_false, Bool.false_eq_true,
      if_pos hpos]
  · intro m
    rw [List.mem_filter]
    constructor
    · rintro ⟨hm, hc⟩
      exact ⟨hm, (contains_eq_true_iff existing m).mp (by simpa using hc)⟩
    · rintro ⟨hm, hc⟩
      exact ⟨hm, (contains_eq_true_iff existing m).mpr hc⟩

/-- Witness for C5's amended theorem: the spec's example — `["010", "011"]`
against issued `["010"]` — names exactly `["010"]`. -/
theorem handleApprove_conflict_exact_witness :
    handleApprove (some ⟨"s1", 2, .pending⟩) ["010", "011"] 3 ["010"] =
      some (.conflictWithExisting
        ((["010", "011"] : List String).filter
          (fun number => (["010"] : List String).contains number))) ∧
    (["010", "011"] : List String).filter
      (fun number => (["010"] : List String).contains number) = ["010"] :=
  ⟨(handleApprove_conflict_exact ⟨"s1", 2, .pending⟩ ["010", "011"] ["010"] 3
      (by decide) (by decide) ⟨"010", by decide, by decide⟩).1,
   by decide⟩

/-- C6 counterexample: `handleApprove` never compares the batch size with
`submission.ticketQuantity` — a one-element batch for a quantity-2 submission
commits — and its per-entry check `isNaN(Number(x))` accepts strings such as
`"1.5"` that are not `digitWidth` ASCII digits, which also commit. -/
theorem handleApprove_validation_gap_cex :
    (handleApprove (some ⟨"s2", 2, .pending⟩) ["111"] 3 [] =
        some (.commit "s2" ["111"]) ∧
      (["111"] : List String).length ≠ 2) ∧
    (handleApprove (some ⟨"s3", 1, .pending⟩) ["1.5"] 3 [] =
        some (.commit "s3" ["1.5"]) ∧
      specIsValid "1.5" 3 = false) := by
  refine ⟨⟨by decide, by decide⟩, ⟨by decide, by decide⟩⟩

/-- C6 amended: the commit condition of `handleApprove`: the update request is
issued exactly when every entry passes the JS format filter (nonempty, length
`raffleMaxDigits`, `Number(x)` not NaN — not the spec's all-digits
`NumberSpace.isValid`), the batch is pairwise-distinct, and no entry is
already issued; the batch size is never compared with
`submission.ticketQuantity`. -/
theorem handleApprove_commit_iff
    (s : Submission) (ticketNumbers existing : List String) (d : Nat) :
    handleApprove (some s) ticketNumbers d existing =
      some (.commit s.id ticketNumbers) ↔
      ((∀ n ∈ ticketNumbers, isInvalidTicketEntry d n = false) ∧
        ticketNumbers.Nodup ∧ ∀ n ∈ ticketNumbers, n ∉ existing) := by
  constructor
  · intro h
    simp only [handleApprove] at h
    split at h
    case isTrue => simp at h
    case isFalse h1 =>
      split at h
      case isTrue => simp at h
      case isFalse h2 =>
        split at h
        case isTrue => simp at h
        case isFalse h3 =>
          refine ⟨?_, ?_, ?_⟩
          · intro n hn
            by_contra hne
            have hmem : n ∈ ticketNumbers.filter
                (fun number => isInvalidTicketEntry d number) :=
              List.mem_filter.mpr ⟨hn, by
                cases hcase : isInvalidTicketEntry d n
                · exact absurd hcase hne
                · rfl⟩
            have := List.length_pos.mpr (List.ne_nil_of_mem hmem)
            omega
          · have : ticketNumbers.dedup.length = ticketNumbers.length := by
              simpa using h2
            exact (dedup_length_eq_iff ticketNumbers).mp this
          · intro n hn hnmem
            have hmem : n ∈ ticketNumbers.filter
                (fun number => existing.contains number) :=
              List.mem_filter.mpr ⟨hn,
                (contains_eq_true_iff existing n).mpr hnmem⟩
            have := List.length_pos.mpr (List.ne_nil_of_mem hmem)
            omega
  · rintro ⟨hvalid, hnodup, hdisj⟩
    have hfilter : ticketNumbers.filter
        (fun number => isInvalidTicketEntry d number) = [] := by
      rw [List.filter_eq_nil_iff]
      intro a ha
      simp [hvalid a ha]
    have hconf : ticketNumbers.filter
        (fun number => existing.contains number) = [] := by
      rw [List.filter_eq_nil_iff]
      intro a ha
      exact fun hc => hdisj a ha ((contains_eq_true_iff existing a).mp hc)
    have hdedup : ticketNumbers.dedup.length = ticketNumbers.length :=
      (dedup_length_eq_iff ticketNumbers).mpr hnodup
    simp only [handleApprove, hfilter, hconf, List.length_nil, gt_iff_lt,
      lt_irrefl, if_false, hdedup, bne_self_eq_false, Bool.false_eq_true]

/-! ## Claims about page accumulation -/

/-- C7 counterexample: an item present in two fetched pages appears twice in
the accumulated list — `flatMap` performs no deduplication by identity. -/
theorem flatMapPages_duplicate_cex :
    (flatMapPages [⟨[⟨"dup", 1, .pending⟩]⟩, ⟨[⟨"dup", 1, .pending⟩]⟩] :
        List Submission) =
      [⟨"dup", 1, .pending⟩, ⟨"dup", 1, .pending⟩] ∧
    ¬ ((flatMapPages [⟨[⟨"dup", 1, .pending⟩]⟩, ⟨[⟨"dup", 1, .pending⟩]⟩] :
        List Submission).map Submission.id).Nodup := by
  refine ⟨by decide, by decide⟩

/-- C7 amended: the accumulation shown from a full enumeration is the plain
concatenation of the fetched pages: every item keeps its multiplicity (an item
matched in `k` pages appears `k` times), with no deduplication by identity. -/
theorem flatMapPages_countP_sum {α : Type} (pages : List (PageOf α))
    (p : α → Bool) :
    (flatMapPages pages).countP p =
      (pages.map (fun page => page.items.countP p)).sum := by
  induction pages with
  | nil => simp [flatMapPages]
  | cons page rest ih =>
    simp only [flatMapPages, List.flatMap_cons, List.countP_append,
      List.map_cons, List.sum_cons]
    rw [← ih]
    rfl

/-! ## Claims about `handleReject` and cache invalidation -/

/-- C8 counterexample: a successful reject goes through the shared
`useUpdateSubmission` mutation, whose `onSuccess` invalidates the ticket-list
query keys (`existingTicketNumbers`, `approvedTickets`) in addition to
submissions and stats — ticket-list views are marked stale. -/
theorem handleReject_invalidates_ticket_lists_cex :
    handleReject (some ⟨"s4", 1, .pending⟩) "spam" =
      some (.request "s4" "spam") ∧
    ["existingTicketNumbers"] ∈ useUpdateSubmissionInvalidations ∧
    ["approvedTickets"] ∈ useUpdateSubmissionInvalidations := by
  refine ⟨by decide, by decide, by decide⟩

/-- C8 amended: a successful reject (nonempty trimmed note) issues the update
request, and the invalidation signal fired on its success is exactly
submissions, stats, existingTicketNumbers and approvedTickets — the same four
keys as for approve, including both ticket-list views. -/
theorem handleReject_request_and_invalidations
    (s : Submission) (note : String) (h : jsTrim note ≠ "") :
    handleReject (some s) note = some (.request s.id note) ∧
    useUpdateSubmissionInvalidations =
      [["submissions"], ["stats"], ["existingTicketNumbers"],
        ["approvedTickets"]] := by
  refine ⟨?_, rfl⟩
  simp [handleReject, h]

/-- Witness for C8's amended theorem at a concrete reject. -/
theorem handleReject_request_and_invalidations_witness :
    handleReject (some ⟨"s5", 1, .pending⟩) "bad payment" =
      some (.request "s5" "bad payment") :=
  (handleReject_request_and_invalidations ⟨"s5", 1, .pending⟩ "bad payment"
    (by decide)).1

/-! ## Claims about `handleSave` -/

/-- C9: editing an existing raffle never writes `max_ticket_digits` — the
update payload omits the field — while the creation payload always carries it,
validated to lie in `[1, 10]`. -/
theorem handleSave_max_ticket_digits
    (raffle : Option Raffle) (title description ticketPrice : String)
    (status : RaffleStatus) (maxDigits imageBase64 : String)
    (p : RafflePayload)
    (h : handleSave raffle title description ticketPrice status maxDigits
      imageBase64 = .save p) :
    (raffle.isSome = true → p.max_ticket_digits = none) ∧
    (raffle = none →
      ∃ k, p.max_ticket_digits = some k ∧ 1 ≤ k ∧ k ≤ 10) := by
  simp only [handleSave] at h
  split at h
  · exact absurd h (by simp)
  · split at h
    · exact absurd h (by simp)
    · split at h
      · exact absurd h (by simp)
      case h_2 price heq =>
        split at h
        · exact absurd h (by simp)
        · split at h
          case h_1 r =>
            obtain rfl : _ = p := SaveOutcome.save.inj h
            exact ⟨fun _ => rfl, by simp⟩
          case h_2 =>
            split at h
            · exact absurd h (by simp)
            · split at h
              · exact absurd h (by simp)
              case h_2 digits heq2 =>
                split at h
                · exact absurd h (by simp)
                case isFalse hrange =>
                  obtain rfl : _ = p := SaveOutcome.save.inj h
                  refine ⟨by simp, fun _ => ⟨digits, rfl, ?_, ?_⟩⟩
                  · simp only [Bool.or_eq_true, decide_eq_true_eq, not_or] at hrange
                    omega
                  · simp only [Bool.or_eq_true, decide_eq_true_eq, not_or] at hrange
                    omega

/-- Witness for C9: a concrete edit (field omitted) and a concrete creation
(field present and in range). -/
theorem handleSave_max_ticket_digits_witness :
    (handleSave (some ⟨"r1", .opened, 5, 3⟩) "T" "" "5" .opened "3" "" =
        .save ⟨"T", none, .finite 5 0, .opened, none, none⟩) ∧
    (⟨"T", none, .finite 5 0, .opened, none, none⟩ :
        RafflePayload).max_ticket_digits = none ∧
    (handleSave none "T" "" "5" .draft "6" "" =
        .save ⟨"T", none, .finite 5 0, .draft, none, some 6⟩) ∧
    ∃ k, (⟨"T", none, .finite 5 0, .draft, none, some 6⟩ :
        RafflePayload).max_ticket_digits = some k ∧ 1 ≤ k ∧ k ≤ 10 :=
  ⟨by decide,
   (handleSave_max_ticket_digits (some ⟨"r1", .opened, 5, 3⟩) "T" "" "5"
      .opened "3" "" ⟨"T", none, .finite 5 0, .opened, none, none⟩
      (by decide)).1 rfl,
   by decide,
   (handleSave_max_ticket_digits none "T" "" "5" .draft "6" ""
      ⟨"T", none, .finite 5 0, .draft, none, some 6⟩ (by decide)).2 rfl⟩

/-! ## Claims about `useCurrentRaffle` -/

/-- C10: `useCurrentRaffle` is deterministic: no raffle on an empty list; a
raffle with status `"open"` whenever one exists; otherwise a raffle carrying
the maximal `created_at` timestamp of the list. -/
theorem useCurrentRaffle_spec (raffles : List Raffle) :
    (currentRaffle raffles = none ↔ raffles = []) ∧
    (∀ r', currentRaffle raffles = some r' →
      r' ∈ raffles ∧
      ((∃ r ∈ raffles, r.status = .opened) → r'.status = .opened) ∧
      ((∀ r ∈ raffles, r.status ≠ .opened) →
        ∀ r ∈ raffles, r.created_at ≤ r'.created_at)) := by
  cases hfind : raffles.find? (fun r => r.status == RaffleStatus.opened) with
  | some o =>
    simp only [currentRaffle, hfind]
    constructor
    · constructor
      · intro h
        exact absurd h (by simp)
      · rintro rfl
        simp at hfind
    · intro r' hr'
      obtain rfl : o = r' := Option.some.inj hr'
      have hmem := List.mem_of_find?_eq_some hfind
      have hstat : (o.status == RaffleStatus.opened) = true := by
        have := List.find?_some hfind
        simpa using this
      rw [beq_iff_eq] at hstat
      exact ⟨hmem, fun _ => hstat, fun hno => absurd hstat (hno o hmem)⟩
  | none =>
    set le := fun (a b : Raffle) => decide (b.created_at ≤ a.created_at) with hle
    have htrans : ∀ a b c : Raffle, le a b → le b c → le a c := by
      intro a b c
      simp only [hle, decide_eq_true_eq]
      omega
    have htotal : ∀ a b : Raffle, le a b || le b a := by
      intro a b
      simp only [hle, Bool.or_eq_true, decide_eq_true_eq]
      omega
    have hsorted := List.sorted_mergeSort htrans htotal raffles
    simp only [currentRaffle, hfind]
    cases hms : raffles.mergeSort le with
    | nil =>
      have hnil : raffles = [] := by
        have hlen := (List.mergeSort_perm raffles le).length_eq
        rw [hms] at hlen
        exact List.length_eq_zero.mp hlen.symm
      constructor
      · simp [hnil]
      · intro r' hr'
        simp at hr'
    | cons r0 tail =>
      constructor
      · constructor
        · intro h
          exact absurd h (by simp)
        · rintro rfl
          simp at hms
      · intro r' hr'
        obtain rfl : r0 = r' := Option.some.inj hr'
        have hmem : r0 ∈ raffles := by
          have : r0 ∈ raffles.mergeSort le := by
            rw [hms]
            exact List.mem_cons_self _ _
          rwa [List.mem_mergeSort] at this
        refine ⟨hmem, ?_, ?_⟩
        · rintro ⟨r, hrmem, hropen⟩
          rw [List.find?_eq_none] at hfind
          exact absurd (by simp [hropen]) (hfind r hrmem)
        · intro _ r hrmem
          rw [hms] at hsorted
          have hhead := (List.pairwise_cons.mp hsorted).1
          have hrm : r ∈ raffles.mergeSort le := List.mem_mergeSort.mpr hrmem
          rw [hms] at hrm
          rcases List.mem_cons.mp hrm with rfl | htail
          · exact Nat.le_refl _
          · have := hhead r htail
            simpa [hle] using this

/-- Witness for C10 on a concrete list holding an open raffle. -/
theorem useCurrentRaffle_spec_witness :
    currentRaffle [⟨"a", .closed, 10, 3⟩, ⟨"b", .opened, 5, 3⟩] =
      some ⟨"b", .opened, 5, 3⟩ ∧
    (⟨"b", .opened, 5, 3⟩ : Raffle).status = .opened :=
  ⟨by decide,
   ((useCurrentRaffle_spec [⟨"a", .closed, 10, 3⟩, ⟨"b", .opened, 5, 3⟩]).2
      ⟨"b", .opened, 5, 3⟩ (by decide)).2.1
     ⟨⟨"b", .opened, 5, 3⟩, by decide, rfl⟩⟩
